import Mathlib

/-!
Verification of the Dataproc cluster resource of the terraform google provider
(`google/resource_dataproc_cluster.go`).  The Go functions are shallowly
embedded as executable Lean definitions; machine integers (`int64`) are
modelled as `Int` with the explicit overflow checks the Go source performs.
-/

namespace DataprocCluster

instance {ε α : Type} [DecidableEq ε] [DecidableEq α] : DecidableEq (Except ε α) := fun x y =>
  match x, y with
  | .ok a, .ok b =>
    if h : a = b then .isTrue (congrArg Except.ok h)
    else .isFalse (fun hh => h (by cases hh; rfl))
  | .error a, .error b =>
    if h : a = b then .isTrue (congrArg Except.error h)
    else .isFalse (fun hh => h (by cases hh; rfl))
  | .ok _, .error _ => .isFalse (fun hh => by cases hh)
  | .error _, .ok _ => .isFalse (fun hh => by cases hh)

/-! ## Duration codec

The create path encodes an initialization-action timeout as
`strconv.Itoa(x) + "s"` (source line 446); the read path decodes it with
`extractInitTimeout` (lines 763-769), which delegates to the Go standard
library `time.ParseDuration` and truncates `Duration.Seconds()` to an `int`.
`time.ParseDuration` is embedded below following the Go standard library
source: `int64` arithmetic is `Int` guarded by the same overflow comparisons
against `1<<63 - 1`.
-/

/-- Largest `int64` value, `1<<63 - 1`; the Go parser's overflow guard. -/
def maxInt64 : Int := 9223372036854775807

/-- Numeric value of a decimal digit character, `int64(c) - '0'` in Go. -/
def digitVal (c : Char) : Int := (c.toNat : Int) - 48

/-- Go's digit test `'0' <= c && c <= '9'` on the character's code point. -/
def isDigitCh (c : Char) : Bool := decide (48 ≤ c.toNat) && decide (c.toNat ≤ 57)

/-- Go `time.leadingInt`: consume leading decimal digits accumulating an
`int64`, failing on overflow exactly where the Go source checks
(`x > (1<<63-1)/10` before the multiply, wrap-to-negative after it). -/
def leadingIntAux : Int → List Char → Except Unit (Int × List Char)
  | x, [] => .ok (x, [])
  | x, c :: cs =>
    if isDigitCh c then
      if x > maxInt64 / 10 then .error ()
      else
        let x2 := x * 10 + digitVal c
        if x2 > maxInt64 then .error () else leadingIntAux x2 cs
    else .ok (x, c :: cs)

/-- Go `time.leadingFraction`: consume digits after the decimal point; once
the `int64` accumulator would overflow the remaining digits are consumed but
ignored.  The Go `scale` is a `float64` power of ten; it is exact for every
digit actually accumulated (at most 19), so an `Int` carries it faithfully. -/
def leadingFractionAux : Int → Int → Bool → List Char → (Int × Int × List Char)
  | f, scale, _, [] => (f, scale, [])
  | f, scale, overflow, c :: cs =>
    if isDigitCh c then
      if overflow then leadingFractionAux f scale overflow cs
      else if f > maxInt64 / 10 then leadingFractionAux f scale true cs
      else
        let y := f * 10 + digitVal c
        if y > maxInt64 then leadingFractionAux f scale true cs
        else leadingFractionAux y (scale * 10) false cs
    else (f, scale, c :: cs)

/-- Go `time.unitMap`, keyed on the unit's characters: nanoseconds through
hours, values in nanoseconds. -/
def unitMap (u : List Char) : Option Int :=
  if u = ['n', 's'] then some 1
  else if u = ['u', 's'] then some 1000
  else if u = ['µ', 's'] then some 1000
  else if u = ['m', 's'] then some 1000000
  else if u = ['s'] then some 1000000000
  else if u = ['m'] then some 60000000000
  else if u = ['h'] then some 3600000000000
  else none

/-- The `(\.[0-9]*)?` step of the `ParseDuration` loop body: consume an
optional fraction, returning numerator, scale, remaining input, and whether
any fractional digit was consumed. -/
def parseFractionPart (s1 : List Char) : Int × Int × List Char × Bool :=
  match s1 with
  | '.' :: rest =>
    let (f, scale, s3) := leadingFractionAux 0 1 false rest
    (f, scale, s3, decide (s3.length ≠ rest.length))
  | _ => (0, 1, s1, false)

/-- One iteration of the `time.ParseDuration` main loop: one
`[0-9]*(\.[0-9]*)?unit` segment.  Returns the segment's value in nanoseconds
and the remaining input.  The fractional contribution
`int64(float64(f) * (float64(unit) / scale))` is modelled with exact integer
arithmetic (`f * unit / scale`), which agrees with the `float64` computation
whenever no rounding occurs; no theorem below evaluates a fractional input. -/
def parseIter (s : List Char) : Except Unit (Int × List Char) :=
  let headOk := match s with
    | [] => false
    | c :: _ => c == '.' || isDigitCh c
  if headOk = false then .error ()
  else match leadingIntAux 0 s with
  | .error _ => .error ()
  | .ok (v, s1) =>
    let pre := decide (s1.length ≠ s.length)
    let (f, scale, s2, post) := parseFractionPart s1
    if pre = false ∧ post = false then .error ()
    else
      let us := s2.takeWhile (fun c => !(c == '.' || isDigitCh c))
      let s4 := s2.drop us.length
      if us = [] then .error ()
      else match unitMap us with
      | none => .error ()
      | some unit =>
        if v > maxInt64 / unit then .error ()
        else
          let v1 := v * unit
          if f > 0 then
            let v2 := v1 + f * unit / scale
            if v2 > maxInt64 then .error () else .ok (v2, s4)
          else .ok (v1, s4)

/-- The `for s != ""` loop of `time.ParseDuration`, accumulating the total in
nanoseconds with the Go wrap-to-negative overflow check after each addition.
Fuel is the remaining input length plus one, which is always sufficient since
every iteration consumes at least one character. -/
def parseLoop : Nat → Int → List Char → Except Unit Int
  | _, d, [] => .ok d
  | 0, _, _ => .error ()
  | fuel + 1, d, c :: cs =>
    match parseIter (c :: cs) with
    | .error _ => .error ()
    | .ok (v, rest) =>
      let d2 := d + v
      if d2 > maxInt64 then .error () else parseLoop fuel d2 rest

/-- Go `time.ParseDuration`: optional sign, the `"0"` special case, the empty
string rejected, then the segment loop.  Result in nanoseconds. -/
def goParseDuration (str : String) : Except Unit Int :=
  let s0 := str.toList
  let (neg, s1) :=
    match s0 with
    | [] => (false, s0)
    | c :: rest => if c == '-' || c == '+' then (c == '-', rest) else (false, s0)
  if s1 = ['0'] then .ok 0
  else if s1 = [] then .error ()
  else match parseLoop (s1.length + 1) 0 s1 with
  | .error _ => .error ()
  | .ok d => .ok (if neg then -d else d)

/-- Go `int(d.Seconds())`: `Duration.Seconds` returns
`float64(d/1e9) + float64(d%1e9)/1e9` and `int` truncates toward zero; for
every nonnegative duration below `2^53` whole seconds (all durations reached
by the theorems here) that equals the integer quotient by `1e9`. -/
def durationToSecondsInt (d : Int) : Int := d / 1000000000

/-- `extractInitTimeout` (source lines 763-769): parse the wire duration and
truncate to whole seconds. -/
def extractInitTimeout (t : String) : Except Unit Int :=
  match goParseDuration t with
  | .error e => .error e
  | .ok d => .ok (durationToSecondsInt d)

/-- Decimal digit character of `n % 10`, as built by `strconv` (`'0' + m`). -/
def digitChar (m : Nat) : Char := Char.ofNat (48 + m)

/-- Digit accumulation of Go `strconv.Itoa` for a nonnegative value,
most-significant digit first.  Fuel-structured so the kernel can evaluate it;
`n + 1` fuel always suffices since the argument is divided by ten each step. -/
def itoaDigitsAux : Nat → Nat → List Char → List Char
  | 0, _, acc => acc
  | fuel + 1, n, acc =>
    if n < 10 then digitChar (n % 10) :: acc
    else itoaDigitsAux fuel (n / 10) (digitChar (n % 10) :: acc)

/-- The character run `strconv.Itoa` produces for a nonnegative `int`. -/
def itoaDigits (n : Nat) : List Char := itoaDigitsAux (n + 1) n []

/-- Go `strconv.Itoa` over the full `int` range. -/
def itoa (i : Int) : String :=
  if i < 0 then String.mk ('-' :: itoaDigits i.natAbs)
  else String.mk (itoaDigits i.natAbs)

/-- The create path's timeout encoding, `strconv.Itoa(x.(int)) + "s"`
(source line 446). -/
def encodeDuration (x : Int) : String :=
  if x < 0 then String.mk ('-' :: (itoaDigits x.natAbs ++ ['s']))
  else String.mk (itoaDigits x.natAbs ++ ['s'])

/-! ### Round-trip lemmas for the duration codec -/

/-- Value of a digit run folded onto an accumulator, mirroring the
`x = x*10 + int64(c) - '0'` accumulation of `leadingInt`. -/
def digitsVal (x : Int) (l : List Char) : Int :=
  l.foldl (fun a c => a * 10 + digitVal c) x

theorem isDigitCh_iff {c : Char} : isDigitCh c = true ↔ 48 ≤ c.toNat ∧ c.toNat ≤ 57 := by
  simp [isDigitCh]

theorem digitChar_toNat : ∀ m, m < 10 → (digitChar m).toNat = 48 + m := by decide

theorem digitChar_isDigit : ∀ m, m < 10 → isDigitCh (digitChar m) = true := by decide

theorem digitVal_digitChar {m : Nat} (hm : m < 10) : digitVal (digitChar m) = (m : Int) := by
  simp [digitVal, digitChar_toNat m hm]

theorem digitVal_nonneg {c : Char} (hc : isDigitCh c = true) : 0 ≤ digitVal c := by
  have h := isDigitCh_iff.mp hc
  simp only [digitVal]
  omega

/-- `itoaDigitsAux` with enough fuel produces a nonempty digit run in front of
the accumulator whose value is the rendered number. -/
theorem itoaDigitsAux_spec : ∀ (fuel n : Nat) (acc : List Char), n < fuel →
    ∃ ds : List Char, itoaDigitsAux fuel n acc = ds ++ acc ∧ ds ≠ [] ∧
      (∀ c ∈ ds, isDigitCh c = true) ∧ digitsVal 0 ds = (n : Int) := by
  intro fuel
  induction fuel with
  | zero => intro n acc h; omega
  | succ fuel ih =>
    intro n acc hn
    by_cases h10 : n < 10
    · refine ⟨[digitChar (n % 10)], by simp [itoaDigitsAux, h10], by simp, ?_, ?_⟩
      · intro c hc
        rw [List.mem_singleton] at hc
        subst hc
        exact digitChar_isDigit (n % 10) (Nat.mod_lt _ (by omega))
      · rw [Nat.mod_eq_of_lt h10]
        simp [digitsVal, digitVal_digitChar h10]
    · have hlt : n / 10 < fuel := by
        have h1 : n / 10 < n := Nat.div_lt_self (by omega) (by omega)
        omega
      obtain ⟨ds, hds, hne, hdig, hval⟩ := ih (n / 10) (digitChar (n % 10) :: acc) hlt
      refine ⟨ds ++ [digitChar (n % 10)], ?_, by simp, ?_, ?_⟩
      · rw [itoaDigitsAux, if_neg h10, hds, List.append_assoc, List.singleton_append]
      · intro c hc
        rw [List.mem_append, List.mem_singleton] at hc
        rcases hc with hc | rfl
        · exact hdig c hc
        · exact digitChar_isDigit (n % 10) (Nat.mod_lt _ (by omega))
      · rw [digitsVal, List.foldl_append]
        rw [digitsVal] at hval
        rw [hval]
        simp only [List.foldl_cons, List.foldl_nil]
        rw [digitVal_digitChar (Nat.mod_lt n (show 0 < 10 by omega))]
        omega

theorem itoaDigits_spec (n : Nat) :
    ∃ ds : List Char, itoaDigits n = ds ∧ ds ≠ [] ∧
      (∀ c ∈ ds, isDigitCh c = true) ∧ digitsVal 0 ds = (n : Int) := by
  obtain ⟨ds, hds, hne, hdig, hval⟩ := itoaDigitsAux_spec (n + 1) n [] (by omega)
  exact ⟨ds, by rw [itoaDigits, hds, List.append_nil], hne, hdig, hval⟩

/-- Folding further digits never decreases a nonnegative accumulator. -/
theorem digitsVal_ge (l : List Char) : ∀ x : Int, 0 ≤ x →
    (∀ c ∈ l, isDigitCh c = true) → x ≤ digitsVal x l := by
  induction l with
  | nil => intro x hx _; simp [digitsVal]
  | cons c cs ih =>
    intro x hx hl
    have hc := hl c (List.mem_cons_self _ _)
    have hd := digitVal_nonneg hc
    have step : x ≤ x * 10 + digitVal c := by omega
    have h2 : x * 10 + digitVal c ≤ digitsVal (x * 10 + digitVal c) cs :=
      ih (x * 10 + digitVal c) (by omega) (fun d hd2 => hl d (List.mem_cons_of_mem _ hd2))
    calc x ≤ x * 10 + digitVal c := step
      _ ≤ digitsVal (x * 10 + digitVal c) cs := h2
      _ = digitsVal x (c :: cs) := by simp [digitsVal]

/-- `leadingInt` on a digit run followed by a non-digit: consumes exactly the
run, returns its value, and none of the overflow guards fire provided the
final value fits in `int64`. -/
theorem leadingIntAux_digits : ∀ (ds : List Char) (x : Int) (rest : List Char),
    (∀ c ∈ ds, isDigitCh c = true) →
    (∀ c, rest.head? = some c → isDigitCh c = false) →
    0 ≤ x → digitsVal x ds ≤ maxInt64 →
    leadingIntAux x (ds ++ rest) = .ok (digitsVal x ds, rest) := by
  intro ds
  induction ds with
  | nil =>
    intro x rest _ hrest hx _
    rw [List.nil_append]
    cases rest with
    | nil => simp [leadingIntAux, digitsVal]
    | cons c cs =>
      have := hrest c rfl
      simp [leadingIntAux, this, digitsVal]
  | cons c cs ih =>
    intro x rest hds hrest hx hval
    have hc : isDigitCh c = true := hds c (List.mem_cons_self _ _)
    have hdv : 0 ≤ digitVal c := digitVal_nonneg hc
    have hcs : ∀ d ∈ cs, isDigitCh d = true := fun d hd => hds d (List.mem_cons_of_mem _ hd)
    have hvcons : digitsVal x (c :: cs) = digitsVal (x * 10 + digitVal c) cs := by
      simp [digitsVal]
    have hx2 : 0 ≤ x * 10 + digitVal c := by omega
    have hbig : x * 10 + digitVal c ≤ maxInt64 := by
      have := digitsVal_ge cs (x * 10 + digitVal c) hx2 hcs
      rw [hvcons] at hval
      omega
    have hdiv : maxInt64 / 10 = 922337203685477580 := by decide
    have hguard : ¬ x > maxInt64 / 10 := by
      rw [hdiv]
      rw [maxInt64] at hbig
      omega
    rw [List.cons_append, leadingIntAux, if_pos hc, if_neg hguard]
    simp only
    rw [if_neg (by omega : ¬ x * 10 + digitVal c > maxInt64)]
    rw [hvcons]
    exact ih (x * 10 + digitVal c) rest hcs hrest hx2 (by rw [← hvcons]; exact hval)

/-- One `ParseDuration` segment consisting of a digit run and the unit `s`
evaluates to the run's value in nanoseconds. -/
theorem parseIter_digits_s (ds : List Char) (n : Int)
    (hds : ∀ c ∈ ds, isDigitCh c = true) (hne : ds ≠ [])
    (hval : digitsVal 0 ds = n) (hbound : n ≤ 9223372036) :
    parseIter (ds ++ ['s']) = .ok (n * 1000000000, []) := by
  have hn0 : 0 ≤ n := by
    rw [← hval]
    exact digitsVal_ge ds 0 le_rfl hds
  have hlead : leadingIntAux 0 (ds ++ ['s']) = .ok (n, ['s']) := by
    rw [leadingIntAux_digits ds 0 ['s'] hds ?hns le_rfl ?hb, hval]
    case hns =>
      intro c hc
      simp only [List.head?_cons, Option.some.injEq] at hc
      subst hc
      decide
    case hb =>
      rw [hval]
      show n ≤ (9223372036854775807 : Int)
      omega
  obtain ⟨c, cs, rfl⟩ : ∃ c cs, ds = c :: cs := by
    cases ds with
    | nil => exact absurd rfl hne
    | cons c cs => exact ⟨c, cs, rfl⟩
  have hc : isDigitCh c = true := hds c (List.mem_cons_self _ _)
  simp only [List.cons_append] at hlead ⊢
  simp only [parseIter, hc, Bool.or_true]
  rw [hlead]
  have hfr : parseFractionPart ['s'] = (0, 1, ['s'], false) := by decide
  have hpre : decide ((1 : Nat) ≠ cs.length + 1 + 1) = true := decide_eq_true (by omega)
  have htw : List.takeWhile (fun c => !(c == '.' || isDigitCh c)) ['s'] = ['s'] := by decide
  have hunit : unitMap ['s'] = some 1000000000 := by decide
  have hdivu : maxInt64 / 1000000000 = 9223372036 := by decide
  simp only [hfr, List.length_cons, List.length_append, List.length_nil, htw, hunit, hdivu]
  have hx : ((0 : Nat) + 1 ≠ cs.length + (0 + 1) + 1) := by omega
  have h2 : ¬ (decide ((0 : Nat) + 1 ≠ cs.length + (0 + 1) + 1) = false ∧ True) := by
    rw [decide_eq_true hx]
    simp
  rw [if_neg (by decide : ¬ (true = false)), if_neg h2,
    if_neg (by decide : ¬ (['s'] = ([] : List Char))),
    if_neg (by omega : ¬ n > 9223372036), if_neg (by decide : ¬ ((0 : Int) > 0))]
  simp

theorem isDigitCh_not_sign {c : Char} (h : isDigitCh c = true) :
    (c == '-') = false ∧ (c == '+') = false := by
  constructor
  · rw [beq_eq_false_iff_ne]
    intro heq
    subst heq
    exact absurd h (by decide)
  · rw [beq_eq_false_iff_ne]
    intro heq
    subst heq
    exact absurd h (by decide)

/-- The `ParseDuration` segment loop on one digit-run-plus-`s` segment. -/
theorem parseLoop_digits_s (ds : List Char) (n : Int) (fuel : Nat) (hfuel : 2 ≤ fuel)
    (hds : ∀ c ∈ ds, isDigitCh c = true) (hne : ds ≠ [])
    (hval : digitsVal 0 ds = n) (hbound : n ≤ 9223372036) :
    parseLoop fuel 0 (ds ++ ['s']) = .ok (n * 1000000000) := by
  obtain ⟨k, rfl⟩ : ∃ k, fuel = k + 2 := ⟨fuel - 2, by omega⟩
  obtain ⟨c, cs, rfl⟩ : ∃ c cs, ds = c :: cs := by
    cases ds with
    | nil => exact absurd rfl hne
    | cons c cs => exact ⟨c, cs, rfl⟩
  have hiter := parseIter_digits_s (c :: cs) n hds hne hval hbound
  simp only [List.cons_append] at hiter ⊢
  simp only [parseLoop]
  rw [hiter]
  have hover : ¬ (0 + n * 1000000000 > maxInt64) := by
    show ¬ 0 + n * 1000000000 > (9223372036854775807 : Int)
    omega
  simp [parseLoop, hover]
  show n * 1000000000 ≤ (9223372036854775807 : Int)
  omega

/-- Round trip of the duration codec: decoding an encoded whole-second value
below the `int64` overflow bound recovers the value. -/
theorem extractInitTimeout_encode (N : Nat) (h : N ≤ 9223372036) :
    extractInitTimeout (encodeDuration (N : Int)) = .ok ((N : Int)) := by
  obtain ⟨ds, hdseq, hne, hdig, hval⟩ := itoaDigits_spec N
  have henc : encodeDuration (N : Int) = String.mk (ds ++ ['s']) := by
    rw [encodeDuration, if_neg (by omega : ¬ (N : Int) < 0)]
    rw [Int.natAbs_ofNat, hdseq]
  obtain ⟨c, cs, rfl⟩ : ∃ c cs, ds = c :: cs := by
    cases ds with
    | nil => exact absurd rfl hne
    | cons c cs => exact ⟨c, cs, rfl⟩
  have hc0 : isDigitCh c = true := hdig c (List.mem_cons_self _ _)
  obtain ⟨hm, hp⟩ := isDigitCh_not_sign hc0
  have hloopAll : ∀ fuel, 2 ≤ fuel →
      parseLoop fuel 0 (c :: (cs ++ ['s'])) = Except.ok ((N : Int) * 1000000000) := by
    intro fuel hf
    have hl := parseLoop_digits_s (c :: cs) (N : Int) fuel hf hdig hne hval (by omega)
    simpa using hl
  have hsec : durationToSecondsInt ((N : Int) * 1000000000) = (N : Int) := by
    rw [durationToSecondsInt]
    omega
  rw [henc]
  simp (disch := omega) [extractInitTimeout, goParseDuration, String.toList, hm, hp,
    hloopAll, hsec]


/-! ## Cluster name validation

The `ValidateFunc` of the `name` attribute (source lines 39-59): a length
bound and three regular expressions, each contributing one error message.
The regexes are anchored character classes over ASCII, embedded as the
corresponding character-list predicates; Go's `len` counts bytes while
`String.length` counts characters, which agree on the ASCII names the other
checks require (and a name with more than 55 characters always has more than
55 bytes, so the length rejection is byte/character agnostic). -/

/-- Character class `[a-z0-9-]`. -/
def isLowerAlnumHyphen (c : Char) : Bool :=
  (decide (97 ≤ c.toNat) && decide (c.toNat ≤ 122)) || isDigitCh c || c == '-'

/-- Character class `[a-z]`. -/
def isLowerAlpha (c : Char) : Bool :=
  decide (97 ≤ c.toNat) && decide (c.toNat ≤ 122)

/-- Character class `[a-z0-9]`. -/
def isLowerAlnum (c : Char) : Bool := isLowerAlpha c || isDigitCh c

/-- Regex `^[a-z0-9-]+$`: nonempty and every character in the class. -/
def matchesFullClass (value : String) : Bool :=
  !(value.toList = []) && value.toList.all isLowerAlnumHyphen

/-- Regex `^[a-z]`: the first character is a lowercase letter. -/
def matchesStartsLetter (value : String) : Bool :=
  match value.toList with
  | [] => false
  | c :: _ => isLowerAlpha c

/-- Regex `[a-z0-9]$`: the last character is lowercase alphanumeric. -/
def matchesEndsAlnum (value : String) : Bool :=
  match value.toList.getLast? with
  | none => false
  | some c => isLowerAlnum c

/-- The `name` attribute's `ValidateFunc` (source lines 39-59): the list of
error messages it appends, in source order; the name is valid iff the list is
empty. -/
def clusterNameErrors (value : String) : List String :=
  (if value.length > 55 then ["name cannot be longer than 55 characters"] else []) ++
  (if matchesFullClass value then [] else
    ["name can only contain lowercase letters, numbers and hyphens"]) ++
  (if matchesStartsLetter value then [] else ["name must start with a letter"]) ++
  (if matchesEndsAlnum value then [] else ["name must end with a number or a letter"])


/-! ## URI normalizer and scope canonicalizer

`extractLastResourceFromUri` and `canonicalizeServiceScope` are provider
utilities defined outside the given sources; they are modelled from the spec
(sections 4.1 and 4.2) and the unit tests that exercise them. -/

/-- Modelled from the spec: `extractLastResourceFromUri` is defined in a
provider utility file that is not part of the given sources.  Spec section
4.1: the substring after the last `/`, or the whole string unchanged when no
`/` is present; the unit tests check
`extractLastResourceFromUri("http://something.com/one/two/three") = "three"`
and `extractLastResourceFromUri("three") = "three"`. -/
def extractLastResourceFromUri (s : String) : String :=
  String.mk (s.toList.foldl (fun acc c => if c == '/' then [] else acc ++ [c]) [])

/-- The modelled URI normalizer agrees with the repository's unit tests
(`TestExtractLastResourceFromUri_withUrl` and `_WithStaticValue`). -/
theorem extractLastResourceFromUri_unit_tests :
    extractLastResourceFromUri "http://something.com/one/two/three" = "three" ∧
    extractLastResourceFromUri "three" = "three" := by
  refine ⟨by decide, by decide⟩

/-- Modelled from the spec: `canonicalizeServiceScope` is defined in a
provider utility file that is not part of the given sources.  Spec section
4.2: a short alias from a fixed table maps to its fully qualified scope URI,
and any other token (already-qualified URIs, unknown aliases) passes through
unchanged.  The table rows here are the aliases named by the spec and by the
service-account acceptance test. -/
def canonicalizeServiceScope (scope : String) : String :=
  if scope = "useraccounts-ro" then "https://www.googleapis.com/auth/cloud.useraccounts.readonly"
  else if scope = "storage-rw" then "https://www.googleapis.com/auth/devstorage.read_write"
  else if scope = "storage-ro" then "https://www.googleapis.com/auth/devstorage.read_only"
  else if scope = "logging-write" then "https://www.googleapis.com/auth/logging.write"
  else if scope = "monitoring" then "https://www.googleapis.com/auth/monitoring"
  else scope

/-- Go `sort.Strings`: ascending lexicographic sort, embedded as insertion
sort over `String`'s linear order (the result, the unique sorted permutation,
is what matters). -/
def sortStrings (l : List String) : List String :=
  List.insertionSort (fun a b => a ≤ b) l

/-- The create path's scope translation (source lines 416-417):
`convertAndMapStringArr(v, canonicalizeServiceScope)` followed by
`sort.Strings`. -/
def translateServiceAccountScopes (l : List String) : List String :=
  sortStrings (l.map canonicalizeServiceScope)

/-- The read path's scope storage (source lines 720-723): only written when
the provider returned a nonempty list, after an in-place `sort.Strings`; no
canonicalization is applied on this path. -/
def flattenedServiceAccountScopes (l : List String) : Option (List String) :=
  if l.length > 0 then some (sortStrings l) else none

/-! ## Data model

`dataproc.*`: the provider API payload types (`google.golang.org/api/dataproc/v1`)
as used by this resource.  Go `nil` pointers are `Option`, `nil` slices and
maps are empty lists, and string maps are association lists. -/

namespace dataproc

structure DiskConfig where
  BootDiskSizeGb : Int
  NumLocalSsds : Int
deriving DecidableEq

structure InstanceGroupConfig where
  NumInstances : Int
  MachineTypeUri : String
  DiskConfig : Option DiskConfig
  IsPreemptible : Bool
  InstanceNames : List String
deriving DecidableEq

structure NodeInitializationAction where
  ExecutableFile : String
  ExecutionTimeout : String
deriving DecidableEq

structure GceClusterConfig where
  ZoneUri : String
  NetworkUri : String
  SubnetworkUri : String
  Tags : List String
  ServiceAccount : String
  ServiceAccountScopes : List String
deriving DecidableEq

structure SoftwareConfig where
  ImageVersion : String
  Properties : List (String × String)
deriving DecidableEq

structure ClusterConfig where
  ConfigBucket : String
  GceClusterConfig : GceClusterConfig
  SoftwareConfig : Option SoftwareConfig
  InitializationActions : List NodeInitializationAction
  MasterConfig : Option InstanceGroupConfig
  WorkerConfig : Option InstanceGroupConfig
  SecondaryWorkerConfig : Option InstanceGroupConfig
deriving DecidableEq

structure Cluster where
  ClusterName : String
  ProjectId : String
  Labels : List (String × String)
  Config : ClusterConfig
deriving DecidableEq

end dataproc

/-! The declarative state as the create path reads it through `d.Get`/`d.GetOk`
and `configOptions`.  An `Option` field is `none` exactly when the
corresponding `ok` is false in Go; a `TypeList` block is the list of element
maps. -/

structure DiskConfigInput where
  boot_disk_size_gb : Option Int
  num_local_ssds : Option Int
deriving DecidableEq

structure InstanceGroupInput where
  num_instances : Option Int
  machine_type : Option String
  disk_config : List DiskConfigInput
deriving DecidableEq

structure GceClusterConfigInput where
  zone : Option String
  network : Option String
  subnetwork : Option String
  tags : Option (List String)
  service_account : Option String
  service_account_scopes : Option (List String)
deriving DecidableEq

structure SoftwareConfigInput where
  image_version : Option String
  override_properties : Option (List (String × String))
deriving DecidableEq

/-- One `initialization_action` block.  `timeout_sec` is `none` when the user
did not write it; the schema declares `Default: 300` for it (source lines
280-284), so the element map the create loop reads always carries a value. -/
structure InitActionInput where
  script : String
  timeout_sec : Option Int
deriving DecidableEq

structure ClusterConfigInput where
  staging_bucket : Option String
  gce_cluster_config : Option GceClusterConfigInput
  software_config : Option SoftwareConfigInput
  initialization_action : List InitActionInput
  master_config : Option InstanceGroupInput
  worker_config : Option InstanceGroupInput
  preemptible_worker_config : Option InstanceGroupInput
deriving DecidableEq

structure ResourceState where
  name : String
  region : String
  labels : List (String × String)
  cluster_config : List ClusterConfigInput
deriving DecidableEq

/-! ## Create: desired state to provider payload -/

/-- The validation message of source line 477 (quotes written as `\x27`). -/
def zoneMandatoryMsg : String :=
  "zone is mandatory when region is set to \x27global\x27"

/-- `instanceGroupConfigCreate` (source lines 523-548): master and worker
groups; absent keys leave the Go zero value. -/
def instanceGroupConfigCreate (cfg : InstanceGroupInput) : dataproc.InstanceGroupConfig :=
  let numInstances := match cfg.num_instances with
    | some v => v
    | none => 0
  let machineTypeUri := match cfg.machine_type with
    | some v => extractLastResourceFromUri v
    | none => ""
  let diskConfig : Option dataproc.DiskConfig := match cfg.disk_config with
    | [] => none
    | dcfg :: _ =>
      some ⟨(match dcfg.boot_disk_size_gb with | some v => v | none => 0),
            (match dcfg.num_local_ssds with | some v => v | none => 0)⟩
  ⟨numInstances, machineTypeUri, diskConfig, false, []⟩

/-- `preemptibleInstanceGroupConfigCreate` (source lines 503-521): no machine
type, no local SSDs. -/
def preemptibleInstanceGroupConfigCreate (cfg : InstanceGroupInput) : dataproc.InstanceGroupConfig :=
  let numInstances := match cfg.num_instances with
    | some v => v
    | none => 0
  let diskConfig : Option dataproc.DiskConfig := match cfg.disk_config with
    | [] => none
    | dcfg :: _ =>
      some ⟨(match dcfg.boot_disk_size_gb with | some v => v | none => 0), 0⟩
  ⟨numInstances, "", diskConfig, false, []⟩

/-- The per-action translation of the create loop (source lines 440-450):
the script, and `strconv.Itoa(timeout) + "s"`.  The element map always holds
a `timeout_sec` (the schema's `Default: 300` fills it when unset), so the
`ok` branch that writes `ExecutionTimeout` is always taken; an unset user
timeout therefore reads as `300`. -/
def translateInitAction (a : InitActionInput) : dataproc.NodeInitializationAction :=
  ⟨a.script, encodeDuration (a.timeout_sec.getD 300)⟩

/-- The payload-building half of `resourceDataprocClusterCreate` (source
lines 360-478), up to and including the zone-under-global check that guards
the provider call.

The source initializes `zok := false` at line 370; inside the gce branch,
line 399 `zone, zok := cfg["zone"]` uses `:=` in an inner block, which in Go
declares a NEW `zok` shadowing the outer one, so the outer `zok` read by the
check at line 476 is never updated.  The embedding reproduces that: the inner
binding is `zokInner` and the check reads the outer `zok`. -/
def buildCreateCluster (project : String) (d : ResourceState) : Except String dataproc.Cluster :=
  let zok := false
  let baseGce : dataproc.GceClusterConfig := ⟨"", "", "", [], "", []⟩
  let config : dataproc.ClusterConfig :=
    match d.cluster_config with
    | [] => ⟨"", baseGce, none, [], none, none, none⟩
    | conf :: _ =>
      let configBucket := match conf.staging_bucket with
        | some v => v
        | none => ""
      let gcc : dataproc.GceClusterConfig :=
        match conf.gce_cluster_config with
        | none => baseGce
        | some cfg =>
          let zokInner := cfg.zone.isSome
          let zoneUri := if zokInner then cfg.zone.getD "" else ""
          let networkUri := match cfg.network with
            | some v => extractLastResourceFromUri v
            | none => ""
          let subnetworkUri := match cfg.subnetwork with
            | some v => extractLastResourceFromUri v
            | none => ""
          let tags := match cfg.tags with
            | some v => v
            | none => []
          let serviceAccount := match cfg.service_account with
            | some v => v
            | none => ""
          let scopes := match cfg.service_account_scopes with
            | some v => translateServiceAccountScopes v
            | none => []
          ⟨zoneUri, networkUri, subnetworkUri, tags, serviceAccount, scopes⟩
      let softwareConfig : Option dataproc.SoftwareConfig :=
        match conf.software_config with
        | none => none
        | some cfg =>
          let props := match cfg.override_properties with
            | some m => m
            | none => []
          let imageVersion := match cfg.image_version with
            | some v => v
            | none => ""
          some ⟨imageVersion, props⟩
      let initActions : List dataproc.NodeInitializationAction :=
        match conf.initialization_action with
        | [] => []
        | acts => acts.map translateInitAction
      let masterConfig := match conf.master_config with
        | none => none
        | some cfg => some (instanceGroupConfigCreate cfg)
      let workerConfig := match conf.worker_config with
        | none => none
        | some cfg => some (instanceGroupConfigCreate cfg)
      let secondaryWorkerConfig := match conf.preemptible_worker_config with
        | none => none
        | some cfg =>
          let icg := preemptibleInstanceGroupConfigCreate cfg
          if icg.NumInstances > 0 then
            some ⟨icg.NumInstances, icg.MachineTypeUri, icg.DiskConfig, true, icg.InstanceNames⟩
          else some icg
      ⟨configBucket, gcc, softwareConfig, initActions, masterConfig, workerConfig,
        secondaryWorkerConfig⟩
  if d.region == "global" && !zok then .error zoneMandatoryMsg
  else .ok ⟨d.name, project, d.labels, config⟩

/-! ## Update: patch mask and partial payload -/

/-- The three update-eligible fields as read by `resourceDataprocClusterUpdate`
(prior and desired values; `d.HasChange` is true iff they differ). -/
structure UpdView where
  labels : List (String × String)
  workerNumInstances : Int
  preemptibleNumInstances : Int
deriving DecidableEq

/-- The partial patch payload: only the subtrees the update sets.  `none`
marks a subtree the Go code leaves at its zero value (absent from the
serialized patch). -/
structure PatchPayload where
  Labels : Option (List (String × String))
  WorkerConfigNumInstances : Option Int
  SecondaryWorkerConfigNumInstances : Option Int
deriving DecidableEq

/-- The mask/payload computation of `resourceDataprocClusterUpdate` (source
lines 562-620): three `HasChange` checks appending to `updMask` in source
order, then the patch call guarded by `len(updMask) > 0`; `none` means no
patch API call is made. -/
def resourceDataprocClusterUpdateModel (prior desired : UpdView) :
    Option (String × PatchPayload) :=
  let updMask0 : List String := []
  let labelsField : Option (List (String × String)) :=
    if prior.labels ≠ desired.labels then some desired.labels else none
  let updMask1 :=
    if prior.labels ≠ desired.labels then updMask0 ++ ["labels"] else updMask0
  let workerField : Option Int :=
    if prior.workerNumInstances ≠ desired.workerNumInstances then
      some desired.workerNumInstances
    else none
  let updMask2 :=
    if prior.workerNumInstances ≠ desired.workerNumInstances then
      updMask1 ++ ["config.worker_config.num_instances"]
    else updMask1
  let secondaryField : Option Int :=
    if prior.preemptibleNumInstances ≠ desired.preemptibleNumInstances then
      some desired.preemptibleNumInstances
    else none
  let updMask3 :=
    if prior.preemptibleNumInstances ≠ desired.preemptibleNumInstances then
      updMask2 ++ ["config.secondary_worker_config.num_instances"]
    else updMask2
  if updMask3.length > 0 then
    some (String.intercalate "," updMask3, ⟨labelsField, workerField, secondaryField⟩)
  else none

/-- `buildPatch` as the spec words it (section 4.5): `None` when no eligible
field differs; otherwise the mask paths of exactly the changed fields joined
in the fixed order labels, worker count, secondary-worker count, with a
partial payload holding only the changed subtrees. -/
def buildPatch (prior desired : UpdView) : Option (String × PatchPayload) :=
  if prior.labels = desired.labels ∧
      prior.workerNumInstances = desired.workerNumInstances ∧
      prior.preemptibleNumInstances = desired.preemptibleNumInstances then
    none
  else
    some
      (String.intercalate ","
        ((if prior.labels ≠ desired.labels then ["labels"] else []) ++
         (if prior.workerNumInstances ≠ desired.workerNumInstances then
            ["config.worker_config.num_instances"] else []) ++
         (if prior.preemptibleNumInstances ≠ desired.preemptibleNumInstances then
            ["config.secondary_worker_config.num_instances"] else [])),
       ⟨if prior.labels ≠ desired.labels then some desired.labels else none,
        if prior.workerNumInstances ≠ desired.workerNumInstances then
          some desired.workerNumInstances else none,
        if prior.preemptibleNumInstances ≠ desired.preemptibleNumInstances then
          some desired.preemptibleNumInstances else none⟩)

/-! ## CRUD flows and the locally recorded identity

The stored resource id (`d.Id()`); `d.SetId("")` clears it.  Provider calls
and operation waits are effectful collaborators, passed in as their outcomes;
the flows below record exactly where the source calls `d.SetId`. -/

structure IdState where
  id : String
deriving DecidableEq

/-- `resourceDataprocClusterCreate` (source lines 360-501): translate, then
the provider create call, then `d.SetId(clusterName)` (line 487), then the
operation wait; on wait failure `d.SetId("")` (line 494) before returning the
error.  The final read is out of scope of the identity lifecycle. -/
def resourceDataprocClusterCreateModel (project : String) (d : ResourceState)
    (createCall : Except String Unit) (waitCall : Except String Unit)
    (s : IdState) : IdState × Except String Unit :=
  match buildCreateCluster project d with
  | .error e => (s, .error e)
  | .ok _ =>
    match createCall with
    | .error e => (s, .error e)
    | .ok _ =>
      match waitCall with
      | .error e => (⟨""⟩, .error e)
      | .ok _ => (⟨d.name⟩, .ok ())

/-- `resourceDataprocClusterUpdate` (source lines 550-623): the patch call
and wait run only when the mask is nonempty; no branch touches the stored
identity. -/
def resourceDataprocClusterUpdateFlow (prior desired : UpdView)
    (patchCall : Except String Unit) (waitCall : Except String Unit)
    (s : IdState) : IdState × Except String Unit :=
  match resourceDataprocClusterUpdateModel prior desired with
  | none => (s, .ok ())
  | some _ =>
    match patchCall with
    | .error e => (s, .error e)
    | .ok _ =>
      match waitCall with
      | .error e => (s, .error e)
      | .ok _ => (s, .ok ())

/-- `resourceDataprocClusterDelete` (source lines 771-806): optional
autogen-bucket cleanup, the provider delete call, the wait, and only then
`d.SetId("")` (line 804). -/
def resourceDataprocClusterDeleteModel (bucketCleanup : Except String Unit)
    (deleteCall : Except String Unit) (waitCall : Except String Unit)
    (s : IdState) : IdState × Except String Unit :=
  match bucketCleanup with
  | .error e => (s, .error e)
  | .ok _ =>
    match deleteCall with
    | .error e => (s, .error e)
    | .ok _ =>
      match waitCall with
      | .error e => (s, .error e)
      | .ok _ => (⟨""⟩, .ok ())

/-! ## Read: flattening the provider payload back to attributes

The flatten functions build Go `map[string]interface{}` values; they are
embedded as association lists keyed by the literal strings the source writes,
so the spelling of every key is preserved. -/

inductive FlatValue where
  | str (s : String)
  | int (i : Int)
  | strList (l : List String)
  | pairs (m : List (String × String))
  | mapList (l : List (List (String × FlatValue)))

/-- Go map assignment `m[k] = v` on an association list. -/
def mapSet : List (String × FlatValue) → String → FlatValue → List (String × FlatValue)
  | [], k, v => [(k, v)]
  | (k0, v0) :: rest, k, v =>
    if k0 = k then (k0, v) :: rest else (k0, v0) :: mapSet rest k v

/-- `getOrCreateNewMap` (source lines 924-936): the existing nested element
map under `key` if present and nonempty, else a fresh empty map. -/
def getOrCreateNewMap (d : List (String × FlatValue)) (key : String) :
    List (String × FlatValue) :=
  match d.lookup key with
  | some (FlatValue.mapList (m :: _)) => m
  | _ => []

/-- Flatten failures: a nil-pointer dereference (a Go panic), or a duration
the codec rejects. -/
inductive FlattenErr where
  | nilDeref
  | durationErr
deriving DecidableEq

/-- `flattenInitializationActions` (source lines 685-704): per action the
`script`, and `timeout_sec` decoded from `ExecutionTimeout` when that string
is nonempty. -/
def flattenInitializationActions :
    List dataproc.NodeInitializationAction →
    Except FlattenErr (List (List (String × FlatValue)))
  | [] => .ok []
  | v :: rest =>
    let base := [("script", FlatValue.str v.ExecutableFile)]
    match
      (if v.ExecutionTimeout.length > 0 then
        match extractInitTimeout v.ExecutionTimeout with
        | .error _ => Except.error FlattenErr.durationErr
        | .ok tsec => Except.ok (mapSet base "timeout_sec" (FlatValue.int tsec))
      else Except.ok base) with
    | .error e => .error e
    | .ok action =>
      match flattenInitializationActions rest with
      | .error e => .error e
      | .ok actions => .ok (action :: actions)

/-- `flattenGceClusterConfig` (source lines 706-725). -/
def flattenGceClusterConfig (parent : List (String × FlatValue))
    (gcc : dataproc.GceClusterConfig) : List (List (String × FlatValue)) :=
  let g0 := getOrCreateNewMap parent "gce_cluster_config"
  let g1 := mapSet g0 "zone" (FlatValue.str (extractLastResourceFromUri gcc.ZoneUri))
  let g2 := mapSet g1 "tags" (FlatValue.strList gcc.Tags)
  let g3 := mapSet g2 "service_account" (FlatValue.str gcc.ServiceAccount)
  let g4 := if gcc.NetworkUri ≠ "" then
      mapSet g3 "network" (FlatValue.str (extractLastResourceFromUri gcc.NetworkUri))
    else g3
  let g5 := if gcc.SubnetworkUri ≠ "" then
      mapSet g4 "subnetwork" (FlatValue.str (extractLastResourceFromUri gcc.SubnetworkUri))
    else g4
  let g6 := match flattenedServiceAccountScopes gcc.ServiceAccountScopes with
    | some sorted => mapSet g5 "service_account_scopes" (FlatValue.strList sorted)
    | none => g5
  [g6]

/-- `flattenSoftwareConfig` (source lines 677-683): dereferences the pointer
without a nil check, so a payload with no software config panics; the panic
is modelled as `nilDeref`. -/
def flattenSoftwareConfig (parent : List (String × FlatValue))
    (sc : Option dataproc.SoftwareConfig) :
    Except FlattenErr (List (List (String × FlatValue))) :=
  match sc with
  | none => .error FlattenErr.nilDeref
  | some sc =>
    let data0 := getOrCreateNewMap parent "software_config"
    let data1 := mapSet data0 "image_version" (FlatValue.str sc.ImageVersion)
    let data2 := mapSet data1 "properties" (FlatValue.pairs sc.Properties)
    .ok [data2]

/-- `flattenInstanceGroupConfig` (source lines 744-761). -/
def flattenInstanceGroupConfig (parent : List (String × FlatValue)) (name : String)
    (icg : Option dataproc.InstanceGroupConfig) : List (List (String × FlatValue)) :=
  let data0 := getOrCreateNewMap parent name
  let disk0 := getOrCreateNewMap data0 "disk_config"
  let data1 := mapSet data0 "instance_names" (FlatValue.strList [])
  match icg with
  | none => [mapSet data1 "disk_config" (FlatValue.mapList [disk0])]
  | some icg =>
    let d2 := mapSet data1 "num_instances" (FlatValue.int icg.NumInstances)
    let d3 := mapSet d2 "machine_type"
      (FlatValue.str (extractLastResourceFromUri icg.MachineTypeUri))
    let d4 := mapSet d3 "instance_names" (FlatValue.strList icg.InstanceNames)
    let disk1 := match icg.DiskConfig with
      | none => disk0
      | some dc =>
        mapSet (mapSet disk0 "boot_disk_size_gb" (FlatValue.int dc.BootDiskSizeGb))
          "num_local_ssds" (FlatValue.int dc.NumLocalSsds)
    [mapSet d4 "disk_config" (FlatValue.mapList [disk1])]

/-- `flattenPreemptibleInstanceGroupConfig` (source lines 727-742). -/
def flattenPreemptibleInstanceGroupConfig (parent : List (String × FlatValue))
    (name : String) (icg : Option dataproc.InstanceGroupConfig) :
    List (List (String × FlatValue)) :=
  let data0 := getOrCreateNewMap parent name
  let disk0 := getOrCreateNewMap data0 "disk_config"
  let data1 := mapSet data0 "instance_names" (FlatValue.strList [])
  match icg with
  | none => [mapSet data1 "disk_config" (FlatValue.mapList [disk0])]
  | some icg =>
    let d2 := mapSet data1 "num_instances" (FlatValue.int icg.NumInstances)
    let d3 := mapSet d2 "instance_names" (FlatValue.strList icg.InstanceNames)
    let disk1 := match icg.DiskConfig with
      | none => disk0
      | some dc => mapSet disk0 "boot_disk_size_gb" (FlatValue.int dc.BootDiskSizeGb)
    [mapSet d3 "disk_config" (FlatValue.mapList [disk1])]

/-- `flattenClusterConfig` (source lines 655-675): the cluster-config element
map, threading the evolving map through the sub-flatteners as the Go code
mutates it in place.  When the payload carries initialization actions their
flattening is stored under the literal key the source writes at line 672:
`"intialization_action"` (note the spelling). -/
def flattenClusterConfig (dPrior : List (String × FlatValue))
    (cfg : dataproc.ClusterConfig) :
    Except FlattenErr (List (List (String × FlatValue))) :=
  let data0 := dPrior
  let data1 := mapSet data0 "bucket" (FlatValue.str cfg.ConfigBucket)
  let data2 := mapSet data1 "gce_cluster_config"
    (FlatValue.mapList (flattenGceClusterConfig data1 cfg.GceClusterConfig))
  match flattenSoftwareConfig data2 cfg.SoftwareConfig with
  | .error e => .error e
  | .ok sc =>
    let data3 := mapSet data2 "software_config" (FlatValue.mapList sc)
    let data4 := mapSet data3 "master_config"
      (FlatValue.mapList (flattenInstanceGroupConfig data3 "master_config" cfg.MasterConfig))
    let data5 := mapSet data4 "worker_config"
      (FlatValue.mapList (flattenInstanceGroupConfig data4 "worker_config" cfg.WorkerConfig))
    let data6 := mapSet data5 "preemptible_worker_config"
      (FlatValue.mapList (flattenPreemptibleInstanceGroupConfig data5
        "preemptible_worker_config" cfg.SecondaryWorkerConfig))
    if cfg.InitializationActions.length > 0 then
      match flattenInitializationActions cfg.InitializationActions with
      | .error e => .error e
      | .ok val => .ok [mapSet data6 "intialization_action" (FlatValue.mapList val)]
    else .ok [data6]

/-! ## Deleting the autogenerated bucket -/

/-- The outcome of one `Buckets.Delete` call inside `deleteEmptyBucket`:
no error, a `googleapi.Error` with an HTTP code, or an error of any other
type (for which the `err.(*googleapi.Error)` assertion yields `ok = false`
and a nil `gerr`). -/
inductive BucketDeleteResult where
  | success
  | googleapiError (code : Int)
  | otherError (message : String)
deriving DecidableEq

/-- What the retry closure decides for one attempt. -/
inductive RetryDecision where
  | finished
  | retryableErr (code : Int)
  | nonRetryableErr
deriving DecidableEq

/-- The retry closure of `deleteEmptyBucket` (source lines 838-852).  After
`gerr, ok := err.(*googleapi.Error)` the source reads `gerr.Code` at line 844
without consulting `ok`; when the error is not a `googleapi.Error`, `gerr` is
nil and that read is a nil-pointer dereference, modelled as `.error ()`. -/
def deleteEmptyBucketClassify (res : BucketDeleteResult) : Except Unit RetryDecision :=
  match res with
  | .success => .ok .finished
  | .googleapiError code =>
    if code = 404 then .ok .finished
    else if code = 429 then .ok (.retryableErr code)
    else .ok .nonRetryableErr
  | .otherError _ => .error ()

/-! ## Helper lemmas shared by the claim theorems -/

/-- The encoded timeout string always carries at least the unit character. -/
theorem encodeDuration_ne_empty (x : Int) : encodeDuration x ≠ "" := by
  unfold encodeDuration
  by_cases h : x < 0
  · simp only [if_pos h]
    intro heq
    have h2 := congrArg String.data heq
    simp at h2
  · simp only [if_neg h]
    intro heq
    have h2 := congrArg String.data heq
    simp at h2

/-- Sorting is invariant under permutation of the input. -/
theorem sortStrings_perm_eq {l1 l2 : List String} (h : l1.Perm l2) :
    sortStrings l1 = sortStrings l2 := by
  apply List.eq_of_perm_of_sorted
    ((List.perm_insertionSort _ l1).trans (h.trans (List.perm_insertionSort _ l2).symm))
    (List.sorted_insertionSort _ l1) (List.sorted_insertionSort _ l2)

/-! ## Concrete inputs for the claims -/

/-- A desired state with region `"global"` and a zone supplied in the gce
cluster config. -/
def c1ZoneSuppliedState : ResourceState :=
  ⟨"dproc-cluster-test", "global", [],
   [⟨none, some ⟨some "us-central1-a", none, none, none, none, none⟩, none, [],
     none, none, none⟩]⟩

def c2Gce : GceClusterConfigInput :=
  ⟨some "us-central1-a", some "default", none, none, none, none⟩

def c2Master : InstanceGroupInput := ⟨some 3, some "n1-standard-1", [⟨some 10, some 0⟩]⟩

def c2Worker : InstanceGroupInput := ⟨some 3, some "n1-standard-1", [⟨some 11, some 0⟩]⟩

def c2Preempt : InstanceGroupInput := ⟨some 1, none, [⟨some 12, none⟩]⟩

def c2Actions : List InitActionInput :=
  [⟨"gs://b/script1.sh", some 500⟩, ⟨"gs://b/script2.sh", none⟩]

/-- A representative desired state: master, worker and secondary-worker
configs, a network, software config, and two initialization actions. -/
def c2Spec : ResourceState :=
  ⟨"dproc-cluster-test", "us-central1", [("env", "prod")],
   [⟨none, some c2Gce, some (⟨some "1.1", none⟩ : SoftwareConfigInput), c2Actions,
     some c2Master, some c2Worker, some c2Preempt⟩]⟩

/-- The provider payload the create path builds for `c2Spec`. -/
def c2Payload : dataproc.Cluster :=
  match buildCreateCluster "my-project" c2Spec with
  | .ok c => c
  | .error _ => ⟨"", "", [], ⟨"", ⟨"", "", "", [], "", []⟩, none, [], none, none, none⟩⟩

/-- Reflecting the translated payload from a fresh prior state. -/
def c2Flat : Except FlattenErr (List (String × FlatValue)) :=
  match flattenClusterConfig [] c2Payload.Config with
  | .ok (m :: _) => .ok m
  | .ok [] => .error FlattenErr.nilDeref
  | .error e => .error e

/-- The flattened cluster-config element map for `c2Spec`. -/
def c2FlatMap : List (String × FlatValue) :=
  match c2Flat with
  | .ok m => m
  | .error _ => []

/-- An initialization action written without a timeout. -/
def c3Action : InitActionInput := ⟨"gs://b/script.sh", none⟩

/-- A state whose single initialization action has no timeout. -/
def c3Spec : ResourceState :=
  ⟨"dproc-cluster-test", "us-central1", [],
   [⟨none, none, none, [c3Action], none, none, none⟩]⟩

/-! ## Claim theorems -/

/-- C1: the claim says the validation error is raised exactly when region is
`"global"` and no zone is supplied, and not raised when a zone is supplied.
The code disagrees: `zok` is shadowed (line 399), so with region `"global"`
the create translation rejects this state even though it supplies
`zone = "us-central1-a"`, and it does so before the provider create call is
consulted. -/
theorem C1_zone_supplied_under_global_region_still_rejected :
    buildCreateCluster "my-project" c1ZoneSuppliedState = .error zoneMandatoryMsg ∧
    (∀ (createCall waitCall : Except String Unit) (s : IdState),
      resourceDataprocClusterCreateModel "my-project" c1ZoneSuppliedState
        createCall waitCall s = (s, .error zoneMandatoryMsg)) := by
  have h : buildCreateCluster "my-project" c1ZoneSuppliedState = .error zoneMandatoryMsg := by
    decide
  exact ⟨h, fun createCall waitCall s => by
    simp [resourceDataprocClusterCreateModel, h]⟩

/-- C2: the claim says reflecting the translated payload reproduces every
field, the initialization actions reappearing under `initialization_action`.
The code disagrees: `flattenClusterConfig` stores them under the misspelled
key `"intialization_action"` (line 672), so for the representative spec the
declared `initialization_action` attribute receives nothing even though the
payload carries both actions. -/
theorem C2_reflect_loses_initialization_actions :
    (buildCreateCluster "my-project" c2Spec = .ok c2Payload) ∧
    c2Payload.Config.InitializationActions =
      [⟨"gs://b/script1.sh", "500s"⟩, ⟨"gs://b/script2.sh", "300s"⟩] ∧
    (c2Flat.isOk = true) ∧
    (c2FlatMap.lookup "initialization_action").isNone = true ∧
    (c2FlatMap.lookup "intialization_action").isSome = true := by
  refine ⟨by decide, by decide, ?_, ?_, ?_⟩ <;> decide

/-- C3 counterexample: for an action supplied without a timeout the translated
payload does not omit the execution timeout; it carries the locally defaulted
`"300s"`. -/
theorem C3_counterexample_timeout_not_omitted :
    (translateInitAction c3Action).ExecutionTimeout = "300s" ∧
    (match buildCreateCluster "my-project" c3Spec with
      | .ok c => c.Config.InitializationActions
      | .error _ => []) = [⟨"gs://b/script.sh", "300s"⟩] ∧
    ("300s" : String) ≠ "" := by
  refine ⟨by decide, by decide, by decide⟩

/-- C3 amended: the translated payload always sets the execution-timeout
field of every initialization action — to the encoded `timeout_sec` read from
state, which the schema's declared `Default: 300` fills when the user omits
it — and never leaves it empty (omitted). -/
theorem C3_timeout_always_set_with_local_default :
    ∀ a : InitActionInput,
      (translateInitAction a).ExecutionTimeout = encodeDuration (a.timeout_sec.getD 300) ∧
      (translateInitAction a).ExecutionTimeout ≠ "" := by
  intro a
  exact ⟨rfl, encodeDuration_ne_empty _⟩

/-- C4: the update path issues a patch iff one of the three eligible fields
changed, with the mask joining exactly the changed fields' paths in the fixed
order labels, worker count, secondary-worker count, and a payload holding
only the changed subtrees — the update model coincides with the spec's
`buildPatch`. -/
theorem C4_update_patch_mask_exactly_changed_fields :
    ∀ prior desired : UpdView,
      resourceDataprocClusterUpdateModel prior desired = buildPatch prior desired := by
  intro prior desired
  unfold resourceDataprocClusterUpdateModel buildPatch
  by_cases h1 : prior.labels = desired.labels <;>
    by_cases h2 : prior.workerNumInstances = desired.workerNumInstances <;>
      by_cases h3 : prior.preemptibleNumInstances = desired.preemptibleNumInstances <;>
        simp [h1, h2, h3]

/-- C5: a failed create wait clears the stored identity before the error is
returned (and a failed translate or create call leaves it untouched); a
failed update wait leaves the identity intact; delete clears the identity
exactly when the cleanup, the delete call and the wait all succeed. -/
theorem C5_identity_cleared_only_on_create_wait_failure :
    ∀ (project : String) (d : ResourceState) (e : String) (prior desired : UpdView)
      (pc bucketPre dc w : Except String Unit) (s : IdState),
      (resourceDataprocClusterCreateModel project d (.ok ()) (.error e) s =
        (match buildCreateCluster project d with
          | .ok _ => ((⟨""⟩ : IdState), Except.error e)
          | .error e2 => (s, Except.error e2))) ∧
      (resourceDataprocClusterUpdateFlow prior desired pc (.error e) s).1 = s ∧
      (resourceDataprocClusterDeleteModel bucketPre dc w s).1 =
        (if bucketPre = .ok () ∧ dc = .ok () ∧ w = .ok () then (⟨""⟩ : IdState) else s) := by
  intro project d e prior desired pc bucketPre dc w s
  refine ⟨?_, ?_, ?_⟩
  · cases h : buildCreateCluster project d <;>
      simp [resourceDataprocClusterCreateModel, h]
  · unfold resourceDataprocClusterUpdateFlow
    cases resourceDataprocClusterUpdateModel prior desired <;> cases pc <;> simp
  · cases bucketPre <;> cases dc <;> cases w <;>
      simp [resourceDataprocClusterDeleteModel]

/-- C6: the name validator accepts `"a1-b"`, rejects `"A1-b"`, `"1ab"` and
`"ab-"`, and rejects every name longer than 55 characters. -/
theorem C6_name_validation :
    clusterNameErrors "a1-b" = [] ∧ clusterNameErrors "A1-b" ≠ [] ∧
    clusterNameErrors "1ab" ≠ [] ∧ clusterNameErrors "ab-" ≠ [] ∧
    (∀ nm : String, 55 < nm.length → clusterNameErrors nm ≠ []) := by
  refine ⟨by decide, by decide, by decide, by decide, ?_⟩
  intro nm h
  unfold clusterNameErrors
  rw [if_pos (by omega : nm.length > 55)]
  simp

/-- C6 witness: a 56-character name of allowed characters is rejected. -/
theorem C6_name_validation_witness :
    clusterNameErrors (String.mk (List.replicate 56 'a')) ≠ [] :=
  C6_name_validation.2.2.2.2 (String.mk (List.replicate 56 'a')) (by decide)

/-- C7: decoding the empty duration string fails; `"500s"` decodes to 500;
`"5m"` decodes to 300 seconds. -/
theorem C7_duration_decode_cases :
    extractInitTimeout "" = .error () ∧ extractInitTimeout "500s" = .ok 500 ∧
    extractInitTimeout "5m" = .ok 300 := by
  refine ⟨by decide, by decide, by decide⟩

/-- C8 counterexample: the round trip fails for `n = 9223372037`, whose
nanosecond value overflows `int64`, so the decoder rejects the encoded
string. -/
theorem C8_counterexample_roundtrip_overflow :
    extractInitTimeout (encodeDuration 9223372037) ≠ .ok 9223372037 ∧
    extractInitTimeout (encodeDuration 9223372037) = .error () := by
  refine ⟨by decide, by decide⟩

/-- C8 amended: the round trip `decode (encode n) = n` holds for every
nonnegative integer up to `(2^63 - 1) / 10^9 = 9223372036`, the largest
whole-second count whose nanosecond value fits in `int64`; beyond it the
decoder rejects the string. -/
theorem C8_roundtrip_below_overflow_bound (n : Nat) (h : n ≤ 9223372036) :
    extractInitTimeout (encodeDuration (n : Int)) = .ok ((n : Nat) : Int) :=
  extractInitTimeout_encode n h

/-- C8 witness: the bound and the round trip at 500. -/
theorem C8_roundtrip_below_overflow_bound_witness :
    (500 : Nat) ≤ 9223372036 ∧
    extractInitTimeout (encodeDuration ((500 : Nat) : Int)) = .ok (((500 : Nat) : Nat) : Int) :=
  ⟨by decide, C8_roundtrip_below_overflow_bound 500 (by decide)⟩

/-- C9 counterexample: the reflect direction sorts the raw scope list without
canonicalizing, so two scope lists equal as multisets after canonicalization
(an alias versus its fully qualified URI) are stored differently. -/
theorem C9_counterexample_reflect_not_canonicalized :
    (["storage-rw"].map canonicalizeServiceScope =
      (["https://www.googleapis.com/auth/devstorage.read_write"]).map canonicalizeServiceScope) ∧
    flattenedServiceAccountScopes ["storage-rw"] ≠
      flattenedServiceAccountScopes
        ["https://www.googleapis.com/auth/devstorage.read_write"] := by
  refine ⟨by decide, by decide⟩

/-- C9 amended: both directions store lexicographically sorted lists; the
translate direction canonicalizes first and is therefore invariant under
permutations of the canonicalized multiset, while the reflect direction sorts
the raw scopes and is invariant only under permutations of the raw list. -/
theorem C9_scope_sorting_amended :
    ∀ S1 S2 : List String,
      List.Sorted (fun a b : String => a ≤ b) (translateServiceAccountScopes S1) ∧
      List.Sorted (fun a b : String => a ≤ b) ((flattenedServiceAccountScopes S1).getD []) ∧
      (List.Perm (S1.map canonicalizeServiceScope) (S2.map canonicalizeServiceScope) →
        translateServiceAccountScopes S1 = translateServiceAccountScopes S2) ∧
      (List.Perm S1 S2 →
        flattenedServiceAccountScopes S1 = flattenedServiceAccountScopes S2) := by
  intro S1 S2
  refine ⟨List.sorted_insertionSort _ _, ?_, ?_, ?_⟩
  · unfold flattenedServiceAccountScopes
    by_cases h : S1.length > 0
    · rw [if_pos h]
      exact List.sorted_insertionSort _ _
    · rw [if_neg h]
      simp
  · intro hperm
    exact sortStrings_perm_eq hperm
  · intro hperm
    unfold flattenedServiceAccountScopes
    rw [hperm.length_eq]
    by_cases h : S2.length > 0
    · rw [if_pos h, if_pos h, sortStrings_perm_eq hperm]
    · rw [if_neg h, if_neg h]

/-- C9 witness: order-independence at concrete inputs for both directions. -/
theorem C9_scope_sorting_amended_witness :
    translateServiceAccountScopes ["monitoring", "storage-rw"] =
      translateServiceAccountScopes ["storage-rw", "monitoring"] ∧
    flattenedServiceAccountScopes ["b-scope", "a-scope"] =
      flattenedServiceAccountScopes ["a-scope", "b-scope"] := by
  have h := C9_scope_sorting_amended ["monitoring", "storage-rw"] ["storage-rw", "monitoring"]
  have h2 := C9_scope_sorting_amended ["b-scope", "a-scope"] ["a-scope", "b-scope"]
  exact ⟨h.2.2.1 (by decide), h2.2.2.2 (by decide)⟩

/-- C10: the claim says the error classification in `deleteEmptyBucket` is
total over every possible error.  The code disagrees: `gerr.Code` is read
before `ok` is checked (line 844), so a non-`googleapi` error dereferences a
nil pointer (modelled as the `.error ()` outcome) instead of being returned
as a non-retryable failure; the typed cases behave as described. -/
theorem C10_bucket_delete_error_classification_faults :
    deleteEmptyBucketClassify (.otherError "connection reset by peer") = .error () ∧
    deleteEmptyBucketClassify (.googleapiError 404) = .ok .finished ∧
    deleteEmptyBucketClassify (.googleapiError 429) = .ok (.retryableErr 429) ∧
    deleteEmptyBucketClassify (.googleapiError 500) = .ok .nonRetryableErr := by
  refine ⟨rfl, by decide, by decide, by decide⟩

end DataprocCluster
